import Mathlib

/-!
Verification of the AASX ETL pipeline (extract / transform / load) of the
aas-data-modeling repository, against its natural-language specification.

Shallow embedding conventions:
* Python dict access with defaults, such as asset.get("id", ""), is modelled by
  Option fields together with Option.getD.
* Python dict truthiness (an entry that is None or an empty dict is falsy) is
  modelled with Option, and string truthiness with comparison against "".
* Wall-clock timestamps written into metadata blocks (cleaned_at, enriched_at,
  extracted_at, transformation_timestamp, the auto_id fallback of normalized_id,
  processing_time fields) are not modelled: no verified claim mentions them.
* Python floats are modelled by the rationals: the quality-score arithmetic of
  the source consists of two divisions and one mean of small non-negative
  integer counters.
* Phase boundaries that in Python are try/except blocks are modelled with
  Except String, with an injected fault where a claim quantifies over faults.
-/

namespace AASX

/-! ## Python string primitives

The source at src/webapp/aasx/aasx_transformer.py uses str.strip, str.lower and
single-character str.replace.  They are embedded as structurally recursive
functions over the character list of the string (ASCII-faithful; the inputs of
the pipeline are identifiers and format names). -/

/-- Python str.lower, character by character. -/
def pyLower (s : String) : String :=
  ⟨s.data.map Char.toLower⟩

/-- Python str.strip with no argument: remove leading and trailing whitespace. -/
def pyStrip (s : String) : String :=
  ⟨((s.data.dropWhile Char.isWhitespace).reverse.dropWhile Char.isWhitespace).reverse⟩

/-- Python str.replace for a single-character pattern and replacement, which is
how the source uses it (replace(" ", "_") and replace("-", "_")). -/
def pyReplaceChar (c d : Char) (s : String) : String :=
  ⟨s.data.map (fun x => if x = c then d else x)⟩

/-! ## Transformer data model (src/webapp/aasx/aasx_transformer.py) -/

/-- TransformationConfig, lines 20-29 of src/webapp/aasx/aasx_transformer.py. -/
structure TransformationConfig where
  output_format : String := "json"
  include_metadata : Bool := true
  flatten_structures : Bool := false
  normalize_ids : Bool := true
  add_timestamps : Bool := true
  enrich_with_external_data : Bool := false
  quality_checks : Bool := true
  deriving DecidableEq

/-- Value of a raw "description" entry: a plain string, a dict with a "text"
key, a dict with a "langString" list (each entry contributing its "text" value,
defaulting to the empty string), or any other non-string non-dict value. -/
inductive PyDescription where
  | str (s : String)
  | textObj (t : String)
  | langStringObj (texts : List String)
  | otherVal
  deriving DecidableEq

/-- The _clean_description method, lines 246-258: prefer a plain string, then a
"text" entry, then the first "langString" entry; otherwise the empty string. -/
def cleanDescription : PyDescription → String
  | .str s => pyStrip s
  | .textObj t => pyStrip t
  | .langStringObj texts =>
    match texts with
    | [] => ""
    | t :: _ => pyStrip t
  | .otherVal => ""

/-- Raw asset dict as read by _clean_asset; a missing key and a key holding
None coincide with the falsy default in every downstream use, so both are
modelled by none. -/
structure RawAsset where
  id : Option String := none
  id_short : Option String := none
  description : Option PyDescription := none
  kind : Option String := none
  submodels : List String := []
  deriving DecidableEq

/-- Raw submodel dict as read by _clean_submodel (semantic_id and
submodel_elements carry through uninspected by every verified claim and are
not modelled). -/
structure RawSubmodel where
  id : Option String := none
  id_short : Option String := none
  description : Option PyDescription := none
  kind : Option String := none
  deriving DecidableEq

/-- Raw document dict as read by _clean_document. -/
structure RawDocument where
  filename : Option String := none
  size : Option Nat := none
  type : Option String := none
  deriving DecidableEq

/-- Raw extraction output consumed by transform_aasx_data.  A falsy entry
(None or an empty dict) of the assets / submodels / documents lists is
modelled by none; _clean_asset and friends drop those entries. -/
structure RawData where
  assets : List (Option RawAsset) := []
  submodels : List (Option RawSubmodel) := []
  documents : List (Option RawDocument) := []
  deriving DecidableEq

/-- The qi_metadata block attached by enrichment (enriched_at timestamp not
modelled). -/
structure QiMetadata where
  quality_level : String
  compliance_status : String
  deriving DecidableEq

/-- Cleaned asset, the dict built by _clean_asset, lines 123-146
(asset_information and the source/format/cleaned_at metadata block carry
through uninspected; the normalized_id field depends on a wall-clock
timestamp in its empty-id fallback and is inspected by no claim). -/
structure CleanedAsset where
  id : String
  id_short : String
  description : String
  type : String
  submodels : List String
  qi_metadata : Option QiMetadata := none
  deriving DecidableEq

/-- Cleaned submodel, the dict built by _clean_submodel, lines 148-171. -/
structure CleanedSubmodel where
  id : String
  id_short : String
  description : String
  type : String
  qi_metadata : Option QiMetadata := none
  deriving DecidableEq

/-- Cleaned document, the dict built by _clean_document, lines 192-206. -/
structure CleanedDocument where
  filename : String
  size : Nat
  type : String
  deriving DecidableEq

/-- Relationship record emitted by _extract_relationships (extracted_at
timestamp not modelled). -/
structure Relationship where
  source_id : String
  target_id : String
  type : String
  deriving DecidableEq

/-- Cleaned dataset, the dict built by _clean_and_normalize, lines 89-121. -/
structure CleanedData where
  assets : List CleanedAsset := []
  submodels : List CleanedSubmodel := []
  documents : List CleanedDocument := []
  relationships : List Relationship := []
  deriving DecidableEq

/-- The _normalize_id method, lines 227-237: a falsy id maps to the empty
string, otherwise strip then replace spaces and dashes with underscores. -/
def normalizeId (idValue : String) : String :=
  if idValue = "" then ""
  else pyReplaceChar '-' '_' (pyReplaceChar ' ' '_' (pyStrip idValue))

/-- The _clean_asset method on a truthy asset dict. -/
def cleanAsset (a : RawAsset) : CleanedAsset :=
  { id := normalizeId (a.id.getD "")
    id_short := a.id_short.getD ""
    description := cleanDescription (a.description.getD (.str ""))
    type := a.kind.getD "Unknown"
    submodels := a.submodels }

/-- The _clean_submodel method on a truthy submodel dict. -/
def cleanSubmodel (s : RawSubmodel) : CleanedSubmodel :=
  { id := normalizeId (s.id.getD "")
    id_short := s.id_short.getD ""
    description := cleanDescription (s.description.getD (.str ""))
    type := s.kind.getD "Unknown" }

/-- The _clean_document method on a truthy document dict. -/
def cleanDocument (d : RawDocument) : CleanedDocument :=
  { filename := d.filename.getD ""
    size := d.size.getD 0
    type := d.type.getD "" }

/-- One relationship record of _extract_relationships, lines 215-222. -/
def mkAssetSubmodelRel (a : CleanedAsset) (submodelId : String) : Relationship :=
  { source_id := a.id, target_id := submodelId, type := "asset_has_submodel" }

/-- The _extract_relationships method, lines 208-225: per cleaned asset, one
asset_has_submodel record per referenced submodel id. -/
def extractRelationships (d : CleanedData) : List Relationship :=
  d.assets.flatMap (fun a => a.submodels.map (mkAssetSubmodelRel a))

/-- The _clean_and_normalize method, lines 89-121: clean each truthy entry,
drop falsy ones, then extract relationships from the cleaned entities. -/
def cleanAndNormalize (raw : RawData) : CleanedData :=
  let base : CleanedData :=
    { assets := raw.assets.filterMap (Option.map cleanAsset)
      submodels := raw.submodels.filterMap (Option.map cleanSubmodel)
      documents := raw.documents.filterMap (Option.map cleanDocument)
      relationships := [] }
  { base with relationships := extractRelationships base }

/-- The quality_metrics dict computed by _perform_quality_checks,
lines 260-297. -/
structure QualityMetrics where
  total_assets : Nat
  total_submodels : Nat
  total_documents : Nat
  total_relationships : Nat
  assets_with_ids : Nat
  submodels_with_ids : Nat
  assets_with_descriptions : Nat
  submodels_with_descriptions : Nat
  quality_score : ℚ
  deriving DecidableEq

/-- The _perform_quality_checks method, lines 260-297: count entities with a
truthy id and with a truthy description, then set quality_score to the mean of
the two per-entity fractions; it stays 0.0 when there are no entities. -/
def performQualityChecks (d : CleanedData) : QualityMetrics :=
  let assetsWithIds := d.assets.countP (fun a => a.id != "")
  let submodelsWithIds := d.submodels.countP (fun s => s.id != "")
  let assetsWithDescriptions := d.assets.countP (fun a => a.description != "")
  let submodelsWithDescriptions := d.submodels.countP (fun s => s.description != "")
  let totalEntities := d.assets.length + d.submodels.length
  let score : ℚ :=
    if totalEntities > 0 then
      (((assetsWithIds + submodelsWithIds : Nat) : ℚ) / (totalEntities : ℚ)
        + ((assetsWithDescriptions + submodelsWithDescriptions : Nat) : ℚ) / (totalEntities : ℚ)) / 2
    else 0
  { total_assets := d.assets.length
    total_submodels := d.submodels.length
    total_documents := d.documents.length
    total_relationships := d.relationships.length
    assets_with_ids := assetsWithIds
    submodels_with_ids := submodelsWithIds
    assets_with_descriptions := assetsWithDescriptions
    submodels_with_descriptions := submodelsWithDescriptions
    quality_score := score }

/-- Common view of the three attributes that _determine_quality_level and
_check_compliance read off an entity dict. -/
structure EntityView where
  id : String
  id_short : String
  description : String
  deriving DecidableEq

/-- View of a cleaned asset as the entity dict passed to enrichment. -/
def CleanedAsset.view (a : CleanedAsset) : EntityView :=
  { id := a.id, id_short := a.id_short, description := a.description }

/-- View of a cleaned submodel as the entity dict passed to enrichment. -/
def CleanedSubmodel.view (s : CleanedSubmodel) : EntityView :=
  { id := s.id, id_short := s.id_short, description := s.description }

/-- The score accumulated by _determine_quality_level, lines 320-336: one
point each for a truthy id, description and id_short. -/
def qualityChecklistScore (e : EntityView) : Nat :=
  (if e.id != "" then 1 else 0)
    + (if e.description != "" then 1 else 0)
    + (if e.id_short != "" then 1 else 0)

/-- The _determine_quality_level method, lines 320-336. -/
def determineQualityLevel (e : EntityView) : String :=
  if qualityChecklistScore e ≥ 3 then "HIGH"
  else if qualityChecklistScore e ≥ 2 then "MEDIUM"
  else "LOW"

/-- The _check_compliance method, lines 338-345. -/
def checkCompliance (e : EntityView) : String :=
  if e.id != "" && e.description != "" then "COMPLIANT"
  else if e.id != "" then "PARTIAL"
  else "NON_COMPLIANT"

/-- The qi_metadata block written by _enrich_data for one entity. -/
def enrichEntityMeta (e : EntityView) : QiMetadata :=
  { quality_level := determineQualityLevel e
    compliance_status := checkCompliance e }

/-- The _enrich_data method, lines 299-318: attach qi_metadata to every
cleaned asset and submodel. -/
def enrichData (d : CleanedData) : CleanedData :=
  { d with
    assets := d.assets.map (fun a => { a with qi_metadata := some (enrichEntityMeta a.view) })
    submodels := d.submodels.map (fun s => { s with qi_metadata := some (enrichEntityMeta s.view) }) }

/-- Reading quality_level out of an optional qi_metadata block with default "",
as in asset.get("qi_metadata", \x7b\x7d).get("quality_level", ""). -/
def qualityLevelOf (m : Option QiMetadata) : String :=
  (m.map QiMetadata.quality_level).getD ""

/-- Reading compliance_status out of an optional qi_metadata block with
default "". -/
def complianceStatusOf (m : Option QiMetadata) : String :=
  (m.map QiMetadata.compliance_status).getD ""

/-- Per-entity attributes serialized by _to_xml_format (id, id_short,
description). -/
structure XmlEntity where
  id : String
  id_short : String
  description : String
  deriving DecidableEq

/-- Per-entity row of _to_csv_format. -/
structure CsvRow where
  id : String
  id_short : String
  description : String
  type : String
  quality_level : String
  deriving DecidableEq

/-- Node of _to_graph_format. -/
structure GraphNode where
  id : String
  type : String
  id_short : String
  description : String
  quality_level : String
  deriving DecidableEq

/-- Edge of _to_graph_format. -/
structure GraphEdge where
  source : String
  target : String
  type : String
  deriving DecidableEq

/-- Row of _to_flattened_format. -/
structure FlatRow where
  entity_id : String
  entity_type : String
  id_short : String
  description : String
  type : String
  quality_level : String
  compliance_status : String
  deriving DecidableEq

/-- Output envelope of _transform_to_format: one constructor per output
encoding, each carrying the payload that the corresponding _to_..._format
method builds plus the quality_metrics dict it attaches (none models the
empty dict that self.quality_metrics holds when quality checks are off). -/
inductive FormatOutput where
  | jsonFmt (data : CleanedData) (qm : Option QualityMetrics)
  | xmlFmt (assets : List XmlEntity) (submodels : List XmlEntity) (qm : Option QualityMetrics)
  | csvFmt (assets : List CsvRow) (submodels : List CsvRow) (qm : Option QualityMetrics)
  | yamlFmt (data : CleanedData) (qm : Option QualityMetrics)
  | graphFmt (nodes : List GraphNode) (edges : List GraphEdge) (qm : Option QualityMetrics)
  | flattenedFmt (rows : List FlatRow) (qm : Option QualityMetrics)
  deriving DecidableEq

/-- The literal "format" field each _to_..._format method writes into its
result dict. -/
def FormatOutput.formatName : FormatOutput → String
  | .jsonFmt .. => "json"
  | .xmlFmt .. => "xml"
  | .csvFmt .. => "csv"
  | .yamlFmt .. => "yaml"
  | .graphFmt .. => "graph"
  | .flattenedFmt .. => "flattened"

/-- The _to_json_format method, lines 361-368. -/
def toJsonFormat (qm : Option QualityMetrics) (d : CleanedData) : FormatOutput :=
  .jsonFmt d qm

/-- The _to_xml_format method, lines 370-402. -/
def toXmlFormat (qm : Option QualityMetrics) (d : CleanedData) : FormatOutput :=
  .xmlFmt (d.assets.map (fun a => { id := a.id, id_short := a.id_short, description := a.description }))
    (d.submodels.map (fun s => { id := s.id, id_short := s.id_short, description := s.description }))
    qm

/-- The _to_csv_format method, lines 404-437. -/
def toCsvFormat (qm : Option QualityMetrics) (d : CleanedData) : FormatOutput :=
  .csvFmt
    (d.assets.map (fun a =>
      { id := a.id, id_short := a.id_short, description := a.description,
        type := a.type, quality_level := qualityLevelOf a.qi_metadata }))
    (d.submodels.map (fun s =>
      { id := s.id, id_short := s.id_short, description := s.description,
        type := s.type, quality_level := qualityLevelOf s.qi_metadata }))
    qm

/-- The _to_yaml_format method, lines 439-446. -/
def toYamlFormat (qm : Option QualityMetrics) (d : CleanedData) : FormatOutput :=
  .yamlFmt d qm

/-- The _to_graph_format method, lines 448-492. -/
def toGraphFormat (qm : Option QualityMetrics) (d : CleanedData) : FormatOutput :=
  .graphFmt
    (d.assets.map (fun a =>
        { id := a.id, type := "asset", id_short := a.id_short,
          description := a.description, quality_level := qualityLevelOf a.qi_metadata })
      ++ d.submodels.map (fun s =>
        { id := s.id, type := "submodel", id_short := s.id_short,
          description := s.description, quality_level := qualityLevelOf s.qi_metadata }))
    (d.relationships.map (fun r =>
      { source := r.source_id, target := r.target_id, type := r.type }))
    qm

/-- The _to_flattened_format method, lines 494-525. -/
def toFlattenedFormat (qm : Option QualityMetrics) (d : CleanedData) : FormatOutput :=
  .flattenedFmt
    (d.assets.map (fun a =>
        { entity_id := a.id, entity_type := "asset", id_short := a.id_short,
          description := a.description, type := a.type,
          quality_level := qualityLevelOf a.qi_metadata,
          compliance_status := complianceStatusOf a.qi_metadata })
      ++ d.submodels.map (fun s =>
        { entity_id := s.id, entity_type := "submodel", id_short := s.id_short,
          description := s.description, type := s.type,
          quality_level := qualityLevelOf s.qi_metadata,
          compliance_status := complianceStatusOf s.qi_metadata }))
    qm

/-- The _transform_to_format method, lines 347-359: dispatch on the lowercased
output_format; format_methods.get falls back to _to_json_format for every
unrecognized name. -/
def transformToFormat (cfg : TransformationConfig) (qm : Option QualityMetrics)
    (d : CleanedData) : FormatOutput :=
  match pyLower cfg.output_format with
  | "json" => toJsonFormat qm d
  | "xml" => toXmlFormat qm d
  | "csv" => toCsvFormat qm d
  | "yaml" => toYamlFormat qm d
  | "graph" => toGraphFormat qm d
  | "flattened" => toFlattenedFormat qm d
  | _ => toJsonFormat qm d

/-- The transform_aasx_data method, lines 49-87: clean and normalize, compute
the quality metrics when enabled, enrich when enabled, then project to the
configured format.  The final _add_metadata step stamps a metadata block
(timestamp, version, configuration) onto the envelope without touching any
field a verified claim mentions, and is not modelled. -/
def transformAasxData (cfg : TransformationConfig) (raw : RawData) : FormatOutput :=
  let cleaned := cleanAndNormalize raw
  let qm : Option QualityMetrics :=
    if cfg.quality_checks then some (performQualityChecks cleaned) else none
  let enriched := if cfg.enrich_with_external_data then enrichData cleaned else cleaned
  transformToFormat cfg qm enriched

/-! ## Pipeline orchestrator (src/backend/aasx/aasx_etl_pipeline.py)

The per-phase helpers _extract_phase, _transform_phase and _load_phase each
wrap their body in try/except and always return a dict with a success flag and,
on failure, an error message.  process_aasx_file consumes only those two keys
of each phase result, so a phase outcome is embedded as that pair, and a file
is characterized by the outcome each phase would produce for it. -/

/-- Outcome dict of one phase as consumed by process_aasx_file: the success
flag and the error message (meaningful when success is false). -/
structure PhaseResult where
  success : Bool
  error : String := ""
  deriving DecidableEq

/-- The three phase outcomes that processing one given file would produce. -/
structure FileOutcome where
  extract : PhaseResult
  transform : PhaseResult
  load : PhaseResult
  deriving DecidableEq

/-- Per-file result record of process_aasx_file, lines 101-109 (the
processing_time wall-clock field and the redundant top-level "error" key set
alongside the errors list are not modelled). -/
structure RunResult where
  file_path : String
  status : String
  extract_result : Option PhaseResult := none
  transform_result : Option PhaseResult := none
  load_result : Option PhaseResult := none
  errors : List String := []
  deriving DecidableEq

/-- Error string built at lines 150-156 when a phase failure is caught. -/
def etlFailureMsg (path msg : String) : String :=
  "ETL processing failed for " ++ path ++ ": " ++ msg

/-- The except-branch of process_aasx_file, lines 149-160: mark the result
failed and append the wrapped error message. -/
def markFailed (r : RunResult) (path msg : String) : RunResult :=
  { r with status := "failed", errors := r.errors ++ [etlFailureMsg path msg] }

/-- The process_aasx_file method, lines 88-162: run Extract, Transform, Load
in order; raising (and catching) on the first phase whose success flag is
false, which short-circuits the remaining phases. -/
def processAasxFile (path : String) (o : FileOutcome) : RunResult :=
  let r0 : RunResult := { file_path := path, status := "processing" }
  let r1 := { r0 with extract_result := some o.extract }
  if o.extract.success = false then
    markFailed r1 path ("Extraction failed: " ++ o.extract.error)
  else
    let r2 := { r1 with transform_result := some o.transform }
    if o.transform.success = false then
      markFailed r2 path ("Transformation failed: " ++ o.transform.error)
    else
      let r3 := { r2 with load_result := some o.load }
      if o.load.success = false then
        markFailed r3 path ("Loading failed: " ++ o.load.error)
      else { r3 with status := "completed" }

/-- What future.result() yields for one file in _process_parallel: either the
RunResult of the worker, or the exception a worker-pool failure raises. -/
inductive WorkerOutcome where
  | ok (o : FileOutcome)
  | poolFailure (msg : String)

/-- The except-branch of _process_parallel, lines 247-254: a worker-pool
failure is converted into a failed result record for that file. -/
def poolFailureResult (path msg : String) : RunResult :=
  { file_path := path, status := "failed", errors := [msg] }

/-- Collecting one completed future in _process_parallel, lines 242-254. -/
def runWorker (env : String → WorkerOutcome) (path : String) : RunResult :=
  match env path with
  | .ok o => processAasxFile path o
  | .poolFailure e => poolFailureResult path e

/-- The _process_sequential method, lines 220-226: one result per file, in
discovery order. -/
def processSequential (env : String → FileOutcome) (files : List String) : List RunResult :=
  files.map (fun f => processAasxFile f (env f))

/-- The _process_parallel method, lines 228-256: one result per future, in
as-completed order; completionOrder is that order (a permutation of the
discovered files). -/
def processParallel (env : String → WorkerOutcome) (completionOrder : List String) :
    List RunResult :=
  completionOrder.map (runWorker env)

/-- Batch result dict of process_aasx_directory (timing fields and the stats
snapshot are not modelled). -/
structure BatchResult where
  directory : String
  files_found : Nat
  files_processed : Nat
  files_failed : Nat
  results : List RunResult
  deriving DecidableEq

/-- The process_aasx_directory method, lines 164-218, for an existing
directory: aasxFiles is the glob result, envS the per-file phase outcomes in
sequential mode, envP the per-file worker outcomes in parallel mode, and
completionOrder the as-completed order of the worker pool. -/
def processAasxDirectory (dir : String) (aasxFiles : List String) (parallel : Bool)
    (envS : String → FileOutcome) (envP : String → WorkerOutcome)
    (completionOrder : List String) : BatchResult :=
  if aasxFiles.isEmpty then
    { directory := dir, files_found := 0, files_processed := 0, files_failed := 0, results := [] }
  else
    let results :=
      if parallel then processParallel envP completionOrder
      else processSequential envS aasxFiles
    { directory := dir
      files_found := aasxFiles.length
      files_processed := (results.filter (fun r => r.status == "completed")).length
      files_failed := (results.filter (fun r => r.status == "failed")).length
      results := results }

/-! ## Loader (src/backend/aasx/aasx_loader.py)

The relational store is embedded as four association tables.  INSERT OR
REPLACE keyed by the primary key replaces the row when the key is present and
appends it otherwise.  The uuid4 surrogate keys generated for documents and
relationships are embedded as a monotone counter: freshness of the counter
value is the model counterpart of uuid uniqueness. -/

/-- Row of the assets and submodels tables (identical column lists in
_create_database_tables; the metadata JSON column and the created_at default
are not modelled). -/
structure EntityRow where
  id_short : String
  description : String
  type : String
  quality_level : String
  compliance_status : String
  deriving DecidableEq

/-- Row of the documents table. -/
structure DocumentRow where
  filename : String
  size : Nat
  type : String
  deriving DecidableEq

/-- Row of the relationships table. -/
structure RelRow where
  source_id : String
  target_id : String
  type : String
  deriving DecidableEq

/-- INSERT OR REPLACE into an association table keyed by the first
component. -/
def tableUpsert [BEq α] (t : List (α × β)) (k : α) (v : β) : List (α × β) :=
  if t.any (fun e => e.1 == k) then
    t.map (fun e => if e.1 == k then (k, v) else e)
  else t ++ [(k, v)]

/-- Sequence of INSERT OR REPLACE statements with explicit keys, as issued by
the asset and submodel loops of _load_to_database. -/
def upsertMany [BEq α] (t : List (α × β)) (items : List (α × β)) : List (α × β) :=
  items.foldl (fun acc i => tableUpsert acc i.1 i.2) t

/-- Sequence of INSERT OR REPLACE statements whose keys are freshly generated
surrogate ids (uuid4 in the source, a counter here), as issued by the document
and relationship loops of _load_to_database. -/
def surrogateInsertMany (t : List (Nat × β)) (n : Nat) (items : List β) :
    List (Nat × β) × Nat :=
  items.foldl (fun acc b => (tableUpsert acc.1 acc.2 b, acc.2 + 1)) (t, n)

/-- State of the SQLite database: the four tables plus the surrogate-id
source. -/
structure Database where
  assets : List (String × EntityRow) := []
  submodels : List (String × EntityRow) := []
  documents : List (Nat × DocumentRow) := []
  relationships : List (Nat × RelRow) := []
  nextSurrogate : Nat := 0
  deriving DecidableEq

/-- Values bound by _insert_asset, lines 452-466. -/
def assetRowOf (a : CleanedAsset) : EntityRow :=
  { id_short := a.id_short, description := a.description, type := a.type,
    quality_level := qualityLevelOf a.qi_metadata,
    compliance_status := complianceStatusOf a.qi_metadata }

/-- Values bound by _insert_submodel, lines 468-482. -/
def submodelRowOf (s : CleanedSubmodel) : EntityRow :=
  { id_short := s.id_short, description := s.description, type := s.type,
    quality_level := qualityLevelOf s.qi_metadata,
    compliance_status := complianceStatusOf s.qi_metadata }

/-- Values bound by _insert_document, lines 484-497. -/
def docRowOf (d : CleanedDocument) : DocumentRow :=
  { filename := d.filename, size := d.size, type := d.type }

/-- Values bound by _insert_relationship, lines 499-512. -/
def relRowOf (r : Relationship) : RelRow :=
  { source_id := r.source_id, target_id := r.target_id, type := r.type }

/-- The _load_to_database method, lines 337-389, on the cleaned dataset under
the "data" key of the transformed envelope: upsert every asset and submodel
keyed by its id, and every document and relationship keyed by a fresh
surrogate id; records_loaded counts one per executed insert. -/
def loadToDatabase (d : CleanedData) (db : Database) : Database × Nat :=
  let assets := upsertMany db.assets (d.assets.map (fun a => (a.id, assetRowOf a)))
  let submodels := upsertMany db.submodels (d.submodels.map (fun s => (s.id, submodelRowOf s)))
  let docStep := surrogateInsertMany db.documents db.nextSurrogate (d.documents.map docRowOf)
  let relStep := surrogateInsertMany db.relationships docStep.2 (d.relationships.map relRowOf)
  ({ assets := assets, submodels := submodels, documents := docStep.1,
     relationships := relStep.1, nextSurrogate := relStep.2 },
   d.assets.length + d.submodels.length + d.documents.length + d.relationships.length)

/-- Surrogate keys already present in the documents and relationships tables
lie strictly below the counter, so the next generated key is fresh (the model
counterpart of uuid4 never colliding). -/
def surrogateInv (db : Database) : Prop :=
  (∀ k ∈ db.documents.map Prod.fst, k < db.nextSurrogate)
    ∧ (∀ k ∈ db.relationships.map Prod.fst, k < db.nextSurrogate)

/-- Result dict of load_aasx_data, lines 182-187. -/
structure LoadResult where
  files_exported : List String
  database_records : Nat
  vector_embeddings : Nat
  errors : List String
  deriving DecidableEq

/-- Faults injected into the bodies of the three steps of load_aasx_data.
Each fault is the number of loop iterations the step completes before its body
raises; none means the step body runs to the end. -/
structure LoadFaults where
  exportFault : Option Nat := none
  dbFault : Option Nat := none
  vectorFault : Option Nat := none
  deriving DecidableEq

/-- The _export_to_files method, lines 211-247: its try/except catches any
fault of its own body, logs it, and returns the list of files already written
(planned is the full list the method would write). -/
def exportToFilesStep (fault : Option Nat) (planned : List String) : List String :=
  match fault with
  | none => planned
  | some k => planned.take k

/-- The _load_to_database method seen from load_aasx_data: its try/except
catches any fault of its own body and returns the partial counter; an
uncommitted transaction leaves the database unchanged. -/
def loadToDatabaseStep (fault : Option Nat) (d : CleanedData) (db : Database) :
    Database × Nat :=
  match fault with
  | none => loadToDatabase d db
  | some k =>
    (db, min k (d.assets.length + d.submodels.length + d.documents.length + d.relationships.length))

/-- The _load_to_vector_db method, lines 514-543: returns 0 when no embedding
model is available, otherwise one embedding per asset, submodel and document;
its try/except catches any fault of its own body and returns the partial
counter. -/
def loadToVectorDbStep (fault : Option Nat) (embeddingAvailable : Bool)
    (d : CleanedData) : Nat :=
  if embeddingAvailable = false then 0
  else
    match fault with
    | none => d.assets.length + d.submodels.length + d.documents.length
    | some k => min k (d.assets.length + d.submodels.length + d.documents.length)

/-- Body of the try block of load_aasx_data, lines 189-202: the three step
calls in order.  Each step is a total function (its own try/except catches the
injected fault), so the body never propagates an exception. -/
def loadAasxDataBody (f : LoadFaults) (planned : List String) (embeddingAvailable : Bool)
    (d : CleanedData) (db : Database) : Except String (LoadResult × Database) := do
  let files := exportToFilesStep f.exportFault planned
  let dbStep := loadToDatabaseStep f.dbFault d db
  let vec := loadToVectorDbStep f.vectorFault embeddingAvailable d
  pure ({ files_exported := files, database_records := dbStep.2,
          vector_embeddings := vec, errors := [] }, dbStep.1)

/-- The load_aasx_data method, lines 170-209: run the try block; the except
branch, lines 204-207, appends the caught message to the errors list of the
result dict initialized at lines 182-187. -/
def loadAasxData (f : LoadFaults) (planned : List String) (embeddingAvailable : Bool)
    (d : CleanedData) (db : Database) : LoadResult × Database :=
  match loadAasxDataBody f planned embeddingAvailable d db with
  | .ok r => r
  | .error e =>
    ({ files_exported := [], database_records := 0, vector_embeddings := 0,
       errors := ["Error during AASX loading: " ++ e] }, db)

/-! ## Extractor boundary (src/webapp/aasx/aasx_processor.py constructor and
src/backend/aasx/aasx_etl_pipeline.py _extract_phase) -/

/-- Facts about the input path that the AASXProcessor constructor checks:
whether the file exists and the extension component Path(path).suffix. -/
structure PathInfo where
  path : String
  fileExists : Bool
  suffix : String
  deriving DecidableEq

/-- The AASXProcessor constructor, lines 56-73 of aasx_processor.py: raise
FileNotFoundError when the path does not exist, ValueError when the lowercased
extension is not .aasx. -/
def processorInit (p : PathInfo) : Except String Unit :=
  if p.fileExists = false then
    .error ("AASX file not found: " ++ p.path)
  else if (pyLower p.suffix == ".aasx") = false then
    .error ("File must have .aasx extension: " ++ p.path)
  else .ok ()

/-- Dict returned by processor.process() as inspected by _extract_phase:
its truthiness and its "error" key.  The strategy chain inside process() is
opaque to the claim; a run of it either returns such a dict or raises, which
the parameter of extractPhase captures. -/
structure ProcessOutput where
  nonEmpty : Bool := true
  error : Option String := none
  deriving DecidableEq

/-- The _extract_phase method, lines 258-292 of aasx_etl_pipeline.py: build
the processor (whose constructor may raise), run process() (which may raise),
catch any exception into a failure outcome, and otherwise inspect the result
dict: truthy with no "error" key means success, else a failure outcome whose
message is the "error" value or a default. -/
def extractPhase (p : PathInfo) (processRun : Except String ProcessOutput) : PhaseResult :=
  match processorInit p >>= (fun _ => processRun) with
  | .error e => { success := false, error := e }
  | .ok out =>
    if out.nonEmpty && out.error.isNone then { success := true }
    else { success := false, error := out.error.getD "Unknown extraction error" }

/-! ## Pipeline report (src/backend/aasx/aasx_etl_pipeline.py
export_pipeline_report)

The report builder reads attributes off the TransformationConfig dataclass
dynamically; Python raises AttributeError for a name the dataclass does not
define.  Attribute access is therefore embedded as a lookup over the declared
field names of TransformationConfig (lines 20-29 of aasx_transformer.py). -/

/-- Python value stored in a report field. -/
inductive PyValue where
  | str (s : String)
  | bool (b : Bool)
  deriving DecidableEq

/-- LoaderConfig, lines 46-60 of aasx_loader.py (the fields the report
reads). -/
structure LoaderConfig where
  output_directory : String := "output"
  database_path : String := "aasx_data.db"
  vector_db_path : String := "vector_db"
  vector_db_type : String := "chromadb"
  embedding_model : String := "all-MiniLM-L6-v2"
  deriving DecidableEq

/-- ETLPipelineConfig, lines 22-54 of aasx_etl_pipeline.py (the extract_config
free-form dict is not read by any verified claim and is not modelled). -/
structure ETLPipelineConfig where
  transform_config : TransformationConfig := {}
  load_config : LoaderConfig := {}
  enable_validation : Bool := true
  enable_logging : Bool := true
  enable_backup : Bool := true
  parallel_processing : Bool := false
  max_workers : Nat := 4
  deriving DecidableEq

/-- Python attribute access on a TransformationConfig instance: defined for
exactly the seven dataclass fields, AttributeError otherwise. -/
def TransformationConfig.getattr (c : TransformationConfig) : String → Except String PyValue
  | "output_format" => .ok (.str c.output_format)
  | "include_metadata" => .ok (.bool c.include_metadata)
  | "flatten_structures" => .ok (.bool c.flatten_structures)
  | "normalize_ids" => .ok (.bool c.normalize_ids)
  | "add_timestamps" => .ok (.bool c.add_timestamps)
  | "enrich_with_external_data" => .ok (.bool c.enrich_with_external_data)
  | "quality_checks" => .ok (.bool c.quality_checks)
  | n => .error ("AttributeError: TransformationConfig object has no attribute " ++ n)

/-- Report document of export_pipeline_report (generated_at timestamp and the
stats snapshot are not modelled; the claim-relevant content is the
component_configs block). -/
structure PipelineReport where
  report_type : String
  transform_config_report : List (String × PyValue)
  load_config_report : List (String × PyValue)
  deriving DecidableEq

/-- The export_pipeline_report method, lines 444-489: build the report dict
(evaluating the transform_config block reads the attributes
enable_quality_checks, enable_enrichment, output_formats and include_metadata
off the TransformationConfig dataclass, in source order), write it to
output_path, and return output_path. -/
def exportPipelineReport (cfg : ETLPipelineConfig) (outputPath : String) :
    Except String (PipelineReport × String) := do
  let v1 ← cfg.transform_config.getattr "enable_quality_checks"
  let v2 ← cfg.transform_config.getattr "enable_enrichment"
  let v3 ← cfg.transform_config.getattr "output_formats"
  let v4 ← cfg.transform_config.getattr "include_metadata"
  pure
    ({ report_type := "AASX_ETL_Pipeline_Report"
       transform_config_report :=
         [("enable_quality_checks", v1), ("enable_enrichment", v2),
          ("output_formats", v3), ("include_metadata", v4)]
       load_config_report :=
         [("output_directory", .str cfg.load_config.output_directory),
          ("database_path", .str cfg.load_config.database_path),
          ("vector_db_path", .str cfg.load_config.vector_db_path),
          ("vector_db_type", .str cfg.load_config.vector_db_type),
          ("embedding_model", .str cfg.load_config.embedding_model)] },
     outputPath)

/-- Union of the cleaned assets and submodels as the entity set the
specification quantifies over (id, id_short, description of each). -/
def entityViews (d : CleanedData) : List EntityView :=
  d.assets.map CleanedAsset.view ++ d.submodels.map CleanedSubmodel.view

/-! ## Theorems -/

/-- Helper: _transform_to_format falls back to _to_json_format whenever the
lowercased output_format is none of the six dispatch keys. -/
theorem transformToFormat_of_unknown (cfg : TransformationConfig)
    (qm : Option QualityMetrics) (d : CleanedData)
    (h : pyLower cfg.output_format ∉
      (["json", "xml", "csv", "yaml", "graph", "flattened"] : List String)) :
    transformToFormat cfg qm d = toJsonFormat qm d := by
  unfold transformToFormat
  split <;> simp_all

/-- C10: a configuration whose output_format is (case-insensitively) none of
the six recognized encodings is not rejected: _transform_to_format silently
projects to the json encoding, so the output envelope carries format json. -/
theorem C10_unknown_format_projects_to_json (cfg : TransformationConfig)
    (qm : Option QualityMetrics) (d : CleanedData) (raw : RawData)
    (h : pyLower cfg.output_format ∉
      (["json", "xml", "csv", "yaml", "graph", "flattened"] : List String)) :
    transformToFormat cfg qm d = toJsonFormat qm d
      ∧ (transformToFormat cfg qm d).formatName = "json"
      ∧ (transformAasxData cfg raw).formatName = "json" := by
  refine ⟨transformToFormat_of_unknown cfg qm d h, ?_, ?_⟩
  · rw [transformToFormat_of_unknown cfg qm d h]; rfl
  · rw [transformAasxData, transformToFormat_of_unknown cfg _ _ h]; rfl

/-- C10 witness: the unrecognized encoding parquet projects to json. -/
theorem C10_witness :
    (pyLower (TransformationConfig.output_format { output_format := "parquet" }) ∉
      (["json", "xml", "csv", "yaml", "graph", "flattened"] : List String))
    ∧ (transformAasxData { output_format := "parquet" } {}).formatName = "json" :=
  ⟨by decide,
   (C10_unknown_format_projects_to_json { output_format := "parquet" } none {} {}
     (by decide)).2.2⟩

/-- C4: enrichment attaches qi_metadata to every cleaned asset and submodel;
quality_level is HIGH exactly when id, description and id_short are all
non-empty, MEDIUM exactly when exactly two of the three are non-empty, and
LOW otherwise; compliance_status is COMPLIANT exactly when id and description
are both non-empty, PARTIAL exactly when id is non-empty and description is
empty, and NON_COMPLIANT exactly when id is empty. -/
theorem C4_enrichment_quality_and_compliance (d : CleanedData) (e : EntityView) :
    (enrichData d).assets
        = d.assets.map (fun a => { a with qi_metadata := some (enrichEntityMeta a.view) })
    ∧ (enrichData d).submodels
        = d.submodels.map (fun s => { s with qi_metadata := some (enrichEntityMeta s.view) })
    ∧ enrichEntityMeta e
        = { quality_level := determineQualityLevel e, compliance_status := checkCompliance e }
    ∧ (determineQualityLevel e = "HIGH"
        ↔ e.id ≠ "" ∧ e.description ≠ "" ∧ e.id_short ≠ "")
    ∧ (determineQualityLevel e = "MEDIUM"
        ↔ (e.id ≠ "" ∧ e.description ≠ "" ∧ e.id_short = "")
          ∨ (e.id ≠ "" ∧ e.description = "" ∧ e.id_short ≠ "")
          ∨ (e.id = "" ∧ e.description ≠ "" ∧ e.id_short ≠ ""))
    ∧ (determineQualityLevel e = "LOW"
        ↔ determineQualityLevel e ≠ "HIGH" ∧ determineQualityLevel e ≠ "MEDIUM")
    ∧ (checkCompliance e = "COMPLIANT" ↔ e.id ≠ "" ∧ e.description ≠ "")
    ∧ (checkCompliance e = "PARTIAL" ↔ e.id ≠ "" ∧ e.description = "")
    ∧ (checkCompliance e = "NON_COMPLIANT" ↔ e.id = "") := by
  refine ⟨rfl, rfl, rfl, ?_⟩
  rcases e with ⟨i, sh, de⟩
  by_cases h1 : i = "" <;> by_cases h2 : de = "" <;> by_cases h3 : sh = "" <;>
    simp_all [determineQualityLevel, qualityChecklistScore, checkCompliance]

/-- C9: export_pipeline_report reads the attributes enable_quality_checks,
enable_enrichment and output_formats off the TransformationConfig dataclass,
none of which the dataclass defines (its fields are quality_checks,
enrich_with_external_data and output_format), so for every pipeline
configuration the first such access raises AttributeError and no report is
written or returned. -/
theorem C9_export_report_raises (cfg : ETLPipelineConfig) (outputPath : String) :
    exportPipelineReport cfg outputPath
      = .error
          "AttributeError: TransformationConfig object has no attribute enable_quality_checks" :=
  rfl

/-- C7 counterexample: with a fault injected into the file-export step (its
body raises before writing any file), the returned LoadResult has an EMPTY
errors list — the failure message is logged, not appended — refuting the
claim that the failure message is appended to LoadResult.errors. -/
theorem C7_counterexample :
    (loadAasxData { exportFault := some 0 }
        ["aasx_data.json", "aasx_data.yaml", "aasx_data.csv", "aasx_data_graph.json"]
        false {} {}).1.errors = []
    ∧ (loadAasxData { exportFault := some 0 }
        ["aasx_data.json", "aasx_data.yaml", "aasx_data.csv", "aasx_data_graph.json"]
        false {} {}).1.files_exported = [] := by
  exact ⟨rfl, rfl⟩

/-- C7 (amended): the three steps of load_aasx_data are independently
fault-contained — each step result depends only on the fault injected into
that step, so a failure inside one step never prevents the others from
executing, and load always returns a LoadResult without raising; however the
failure message of a step is only logged: LoadResult.errors stays empty,
because every step catches its own exceptions before the accumulating handler
of load_aasx_data can see them. -/
theorem C7_load_fault_containment (f : LoadFaults) (planned : List String)
    (embeddingAvailable : Bool) (d : CleanedData) (db : Database) :
    (loadAasxData f planned embeddingAvailable d db).1.errors = []
    ∧ (loadAasxData f planned embeddingAvailable d db).1.files_exported
        = exportToFilesStep f.exportFault planned
    ∧ (loadAasxData f planned embeddingAvailable d db).1.database_records
        = (loadToDatabaseStep f.dbFault d db).2
    ∧ (loadAasxData f planned embeddingAvailable d db).2
        = (loadToDatabaseStep f.dbFault d db).1
    ∧ (loadAasxData f planned embeddingAvailable d db).1.vector_embeddings
        = loadToVectorDbStep f.vectorFault embeddingAvailable d :=
  ⟨rfl, rfl, rfl, rfl, rfl⟩

/-- C1: process_aasx_file always returns a single result record whose final
status is completed or failed (never left as processing); the first phase
whose outcome has success false marks the result failed with that phase
error message recorded in the errors list, and the remaining phases are not
executed. -/
theorem C1_process_file_phases (path : String) (o : FileOutcome) :
    ((processAasxFile path o).status = "completed"
        ∨ (processAasxFile path o).status = "failed")
    ∧ ((processAasxFile path o).status = "completed"
        ↔ o.extract.success = true ∧ o.transform.success = true ∧ o.load.success = true)
    ∧ (o.extract.success = false →
        (processAasxFile path o).status = "failed"
        ∧ (processAasxFile path o).errors
            = [etlFailureMsg path ("Extraction failed: " ++ o.extract.error)]
        ∧ (processAasxFile path o).transform_result = none
        ∧ (processAasxFile path o).load_result = none)
    ∧ (o.extract.success = true → o.transform.success = false →
        (processAasxFile path o).status = "failed"
        ∧ (processAasxFile path o).errors
            = [etlFailureMsg path ("Transformation failed: " ++ o.transform.error)]
        ∧ (processAasxFile path o).load_result = none)
    ∧ (o.extract.success = true → o.transform.success = true → o.load.success = false →
        (processAasxFile path o).status = "failed"
        ∧ (processAasxFile path o).errors
            = [etlFailureMsg path ("Loading failed: " ++ o.load.error)]) := by
  rcases o with ⟨⟨es, ee⟩, ⟨ts, te⟩, ⟨ls, le⟩⟩
  cases es <;> cases ts <;> cases ls <;>
    simp [processAasxFile, markFailed]

/-- C1 witness: a file whose extraction fails yields one failed record with
the extraction error recorded and the later phases skipped. -/
theorem C1_witness :
    (processAasxFile "f.aasx"
        { extract := { success := false, error := "boom" },
          transform := { success := true }, load := { success := true } }).status = "failed"
    ∧ (processAasxFile "f.aasx"
        { extract := { success := false, error := "boom" },
          transform := { success := true }, load := { success := true } }).transform_result
        = none :=
  ⟨((C1_process_file_phases "f.aasx"
      { extract := { success := false, error := "boom" },
        transform := { success := true }, load := { success := true } }).2.2.1 rfl).1,
   ((C1_process_file_phases "f.aasx"
      { extract := { success := false, error := "boom" },
        transform := { success := true }, load := { success := true } }).2.2.1 rfl).2.2.1⟩

/-- C8: for a path that does not exist or whose lowercased extension is not
.aasx, the extraction phase returns a failure outcome carrying the
FileNotFoundError / ValueError message of the AASXProcessor constructor, and
(the embedding being a total function) no exception escapes the phase
boundary. -/
theorem C8_extract_rejects_bad_paths (p : PathInfo)
    (processRun : Except String ProcessOutput)
    (h : p.fileExists = false ∨ pyLower p.suffix ≠ ".aasx") :
    (extractPhase p processRun).success = false
    ∧ (extractPhase p processRun).error
        = (if p.fileExists = false then "AASX file not found: " ++ p.path
           else "File must have .aasx extension: " ++ p.path) := by
  by_cases hf : p.fileExists = false
  · simp [extractPhase, processorInit, hf, Bind.bind, Except.bind]
  · have hs : pyLower p.suffix ≠ ".aasx" := by
      rcases h with h | h
      · exact absurd h hf
      · exact h
    simp [extractPhase, processorInit, hf, hs, Bind.bind, Except.bind]

/-- C8 witness: a path with extension .txt is rejected with the
InvalidFormat message. -/
theorem C8_witness :
    ((PathInfo.mk "doc.txt" true ".txt").fileExists = false
        ∨ pyLower (PathInfo.mk "doc.txt" true ".txt").suffix ≠ ".aasx")
    ∧ (extractPhase (PathInfo.mk "doc.txt" true ".txt") (.ok {})).success = false :=
  ⟨by decide,
   (C8_extract_rejects_bad_paths (PathInfo.mk "doc.txt" true ".txt") (.ok {})
     (by decide)).1⟩

/-- Helper: assets whose id differs from A.id contribute no relationship
that survives the source-and-type filter for A. -/
theorem relFilter_eq_nil (A : CleanedAsset) (l : List CleanedAsset)
    (h : ∀ b ∈ l, (b.id == A.id) = false) :
    (l.flatMap (fun a => a.submodels.map (mkAssetSubmodelRel a))).filter
      (fun r => r.type == "asset_has_submodel" && r.source_id == A.id) = [] := by
  induction l with
  | nil => rfl
  | cons b l ih =>
    rw [List.flatMap_cons, List.filter_append,
      ih (fun x hx => h x (List.mem_cons_of_mem _ hx)), List.append_nil,
      List.filter_eq_nil_iff]
    intro r hr
    rw [List.mem_map] at hr
    obtain ⟨sid, hsid, rfl⟩ := hr
    have hb := h b (List.mem_cons_self _ _)
    simp [mkAssetSubmodelRel, hb]

/-- Helper: when A is the unique asset of the list carrying its id, the
relationships that _extract_relationships emits with source A.id are exactly
one asset_has_submodel record per entry of A.submodels, in order. -/
theorem relFilter_of_unique (A : CleanedAsset) (l : List CleanedAsset)
    (h : l.filter (fun b => b.id == A.id) = [A]) :
    (l.flatMap (fun a => a.submodels.map (mkAssetSubmodelRel a))).filter
      (fun r => r.type == "asset_has_submodel" && r.source_id == A.id)
      = A.submodels.map (mkAssetSubmodelRel A) := by
  induction l with
  | nil => exact absurd h (by simp)
  | cons b l ih =>
    rw [List.flatMap_cons, List.filter_append]
    by_cases hb : (b.id == A.id) = true
    · rw [List.filter_cons, if_pos hb] at h
      injection h with hbA hnil
      subst hbA
      have htail : ∀ x ∈ l, (x.id == b.id) = false := by
        intro x hx
        have := List.filter_eq_nil_iff.mp hnil x hx
        simpa using this
      rw [relFilter_eq_nil b l htail, List.append_nil, List.filter_eq_self]
      intro r hr
      rw [List.mem_map] at hr
      obtain ⟨sid, hsid, rfl⟩ := hr
      simp [mkAssetSubmodelRel]
    · have hbf : (b.id == A.id) = false := by simpa using hb
      rw [List.filter_cons, if_neg hb] at h
      have hhead : (b.submodels.map (mkAssetSubmodelRel b)).filter
          (fun r => r.type == "asset_has_submodel" && r.source_id == A.id) = [] := by
        rw [List.filter_eq_nil_iff]
        intro r hr
        rw [List.mem_map] at hr
        obtain ⟨sid, hsid, rfl⟩ := hr
        simp [mkAssetSubmodelRel, hbf]
      rw [hhead, List.nil_append]
      exact ih h

/-- C5: for a cleaned asset A that is the unique asset carrying its id, the
relationship list contains exactly one asset_has_submodel record per
referenced submodel id of A, with source A.id and the referenced ids as
targets (so an asset without references contributes none); and every emitted
relationship originates from some cleaned asset and one of its referenced
submodel ids, with type asset_has_submodel. -/
theorem C5_relationship_completeness (d : CleanedData) (A : CleanedAsset)
    (hA : d.assets.filter (fun b => b.id == A.id) = [A]) :
    (((extractRelationships d).filter
        (fun r => r.type == "asset_has_submodel" && r.source_id == A.id)).map
        Relationship.target_id
      = A.submodels)
    ∧ (((extractRelationships d).filter
        (fun r => r.type == "asset_has_submodel" && r.source_id == A.id)).length
      = A.submodels.length)
    ∧ (∀ r ∈ extractRelationships d,
        r.type = "asset_has_submodel"
          ∧ ∃ a ∈ d.assets, r.source_id = a.id ∧ r.target_id ∈ a.submodels) := by
  have hmain := relFilter_of_unique A d.assets hA
  rw [extractRelationships]
  refine ⟨?_, ?_, ?_⟩
  · rw [hmain, List.map_map]
    show List.map (fun sid => sid) A.submodels = A.submodels
    exact List.map_id' A.submodels
  · rw [hmain, List.length_map]
  · intro r hr
    rw [List.mem_flatMap] at hr
    obtain ⟨a, ha, hr⟩ := hr
    rw [List.mem_map] at hr
    obtain ⟨sid, hsid, rfl⟩ := hr
    exact ⟨rfl, a, ha, rfl, hsid⟩

/-- C5 witness: an asset a1 with two referenced submodels yields exactly the
two target ids s1 and s2. -/
theorem C5_witness :
    ((CleanedData.mk [CleanedAsset.mk "a1" "Motor1" "DC motor" "Unknown" ["s1", "s2"] none]
        [] [] []).assets.filter
        (fun b => b.id == (CleanedAsset.mk "a1" "Motor1" "DC motor" "Unknown" ["s1", "s2"] none).id)
      = [CleanedAsset.mk "a1" "Motor1" "DC motor" "Unknown" ["s1", "s2"] none])
    ∧ ((extractRelationships
          (CleanedData.mk [CleanedAsset.mk "a1" "Motor1" "DC motor" "Unknown" ["s1", "s2"] none]
            [] [] [])).filter
        (fun r => r.type == "asset_has_submodel"
          && r.source_id == (CleanedAsset.mk "a1" "Motor1" "DC motor" "Unknown" ["s1", "s2"] none).id)).map
        Relationship.target_id = ["s1", "s2"] :=
  ⟨by decide,
   (C5_relationship_completeness
     (CleanedData.mk [CleanedAsset.mk "a1" "Motor1" "DC motor" "Unknown" ["s1", "s2"] none] [] [] [])
     (CleanedAsset.mk "a1" "Motor1" "DC motor" "Unknown" ["s1", "s2"] none)
     (by decide)).1⟩

/-- C5 counterexample: when two cleaned assets share the id x (reachable,
since two distinct raw ids can normalize to the same string), the asset with
the single referenced submodel s1 sees two asset_has_submodel relationships
carrying its source id, not exactly one, refuting the claim as stated for
that asset. -/
theorem C5_counterexample :
    (((extractRelationships
        { assets := [{ id := "x", id_short := "", description := "", type := "Unknown",
                       submodels := ["s1"] },
                     { id := "x", id_short := "", description := "", type := "Unknown",
                       submodels := ["s2"] }] }).filter
        (fun r => r.type == "asset_has_submodel" && r.source_id == "x")).length = 2)
    ∧ (CleanedAsset.submodels
        { id := "x", id_short := "", description := "", type := "Unknown",
          submodels := ["s1"] }).length = 1 :=
  ⟨rfl, rfl⟩

/-- C3 (amended): with quality checks enabled the quality score equals the
mean of the fraction of entities (union of cleaned assets and submodels) with
a non-empty id and the fraction with a non-empty description, and 0.0 when
there are no entities; it always lies in [0, 1]; and it equals 1.0 exactly
when there is at least one entity and every entity has both a non-empty id
and a non-empty description (at zero entities the score is 0.0, not 1.0). -/
theorem C3_quality_score_characterization (d : CleanedData) :
    ((performQualityChecks d).quality_score
      = (if 0 < (entityViews d).length then
          (((entityViews d).countP (fun e => e.id != "") : ℚ) / ((entityViews d).length : ℚ)
            + ((entityViews d).countP (fun e => e.description != "") : ℚ)
              / ((entityViews d).length : ℚ)) / 2
         else 0))
    ∧ 0 ≤ (performQualityChecks d).quality_score
    ∧ (performQualityChecks d).quality_score ≤ 1
    ∧ ((performQualityChecks d).quality_score = 1
        ↔ entityViews d ≠ []
          ∧ ∀ e ∈ entityViews d, e.id ≠ "" ∧ e.description ≠ "") := by
  have hlen : (entityViews d).length = d.assets.length + d.submodels.length := by
    simp [entityViews]
  have hid : (entityViews d).countP (fun e => e.id != "")
      = d.assets.countP (fun a => a.id != "") + d.submodels.countP (fun s => s.id != "") := by
    rw [entityViews, List.countP_append, List.countP_map, List.countP_map]; rfl
  have hdesc : (entityViews d).countP (fun e => e.description != "")
      = d.assets.countP (fun a => a.description != "")
        + d.submodels.countP (fun s => s.description != "") := by
    rw [entityViews, List.countP_append, List.countP_map, List.countP_map]; rfl
  have hscore : (performQualityChecks d).quality_score
      = (if 0 < (entityViews d).length then
          (((entityViews d).countP (fun e => e.id != "") : ℚ) / ((entityViews d).length : ℚ)
            + ((entityViews d).countP (fun e => e.description != "") : ℚ)
              / ((entityViews d).length : ℚ)) / 2
         else 0) := by
    simp only [performQualityChecks, hlen, hid, hdesc]
  refine ⟨hscore, ?_, ?_, ?_⟩ <;> rw [hscore]
  · split
    · have hn : (0 : ℚ) < ((entityViews d).length : ℚ) := by exact_mod_cast (by assumption)
      positivity
    · exact le_refl 0
  · split
    · rename 0 < (entityViews d).length => hpos
      have hn : (0 : ℚ) < ((entityViews d).length : ℚ) := by exact_mod_cast hpos
      have h1 : ((entityViews d).countP (fun e => e.id != "") : ℚ)
          / ((entityViews d).length : ℚ) ≤ 1 := by
        rw [div_le_one hn]
        exact_mod_cast List.countP_le_length _
      have h2 : ((entityViews d).countP (fun e => e.description != "") : ℚ)
          / ((entityViews d).length : ℚ) ≤ 1 := by
        rw [div_le_one hn]
        exact_mod_cast List.countP_le_length _
      linarith
    · exact zero_le_one
  · split
    · rename 0 < (entityViews d).length => hpos
      have hn : (0 : ℚ) < ((entityViews d).length : ℚ) := by exact_mod_cast hpos
      have hne : entityViews d ≠ [] := by
        intro hnil
        rw [hnil] at hpos
        exact absurd hpos (by simp)
      have ha : (entityViews d).countP (fun e => e.id != "") ≤ (entityViews d).length :=
        List.countP_le_length _
      have hb : (entityViews d).countP (fun e => e.description != "")
          ≤ (entityViews d).length := List.countP_le_length _
      constructor
      · intro heq
        have hsum : ((entityViews d).countP (fun e => e.id != "") : ℚ)
            + ((entityViews d).countP (fun e => e.description != "") : ℚ)
              = 2 * ((entityViews d).length : ℚ) := by
          field_simp at heq
          linarith
        have hsumn : (entityViews d).countP (fun e => e.id != "")
            + (entityViews d).countP (fun e => e.description != "")
              = 2 * (entityViews d).length := by exact_mod_cast hsum
        have hida : (entityViews d).countP (fun e => e.id != "") = (entityViews d).length := by
          omega
        have hdesca : (entityViews d).countP (fun e => e.description != "")
            = (entityViews d).length := by omega
        refine ⟨hne, ?_⟩
        intro e he
        have hall1 := List.countP_eq_length.mp hida e he
        have hall2 := List.countP_eq_length.mp hdesca e he
        constructor
        · simpa using hall1
        · simpa using hall2
      · rintro ⟨-, hall⟩
        have hida : (entityViews d).countP (fun e => e.id != "") = (entityViews d).length := by
          rw [List.countP_eq_length]
          intro e he
          simpa using (hall e he).1
        have hdesca : (entityViews d).countP (fun e => e.description != "")
            = (entityViews d).length := by
          rw [List.countP_eq_length]
          intro e he
          simpa using (hall e he).2
        rw [hida, hdesca]
        field_simp
    · rename ¬ 0 < (entityViews d).length => hzero
      have hnil : entityViews d = [] := by
        have h0 : (entityViews d).length = 0 := by omega
        exact List.length_eq_zero.mp h0
      constructor
      · intro h0
        exact absurd h0.symm one_ne_zero
      · rintro ⟨hne, -⟩
        exact absurd hnil hne

/-- C3 counterexample: at an empty dataset the score stays 0.0 although every
entity (vacuously) has a non-empty id and description, so the claimed
bi-implication with 1.0 fails as stated. -/
theorem C3_counterexample :
    ((entityViews ({} : CleanedData)).all (fun e => e.id != "" && e.description != "") = true)
    ∧ (performQualityChecks ({} : CleanedData)).quality_score ≠ 1 :=
  ⟨rfl, by decide⟩

/-- Helper: process_aasx_file reports the path it was given. -/
theorem processAasxFile_path_eq (path : String) (o : FileOutcome) :
    (processAasxFile path o).file_path = path := by
  rcases o with ⟨⟨es, ee⟩, ⟨ts, te⟩, ⟨ls, le⟩⟩
  cases es <;> cases ts <;> cases ls <;> simp [processAasxFile, markFailed]

/-- Helper: a collected worker result reports the path of its file. -/
theorem runWorker_path_eq (env : String → WorkerOutcome) (path : String) :
    (runWorker env path).file_path = path := by
  rw [runWorker]
  cases env path with
  | ok o => exact processAasxFile_path_eq path o
  | poolFailure e => rfl

/-- Helper: every result record of process_aasx_file ends completed or
failed. -/
theorem processAasxFile_status (path : String) (o : FileOutcome) :
    (processAasxFile path o).status = "completed"
      ∨ (processAasxFile path o).status = "failed" := by
  rcases o with ⟨⟨es, ee⟩, ⟨ts, te⟩, ⟨ls, le⟩⟩
  cases es <;> cases ts <;> cases ls <;> simp [processAasxFile, markFailed]

/-- Helper: every collected worker result ends completed or failed. -/
theorem runWorker_status (env : String → WorkerOutcome) (path : String) :
    (runWorker env path).status = "completed" ∨ (runWorker env path).status = "failed" := by
  rw [runWorker]
  cases env path with
  | ok o => exact processAasxFile_status path o
  | poolFailure e => exact Or.inr rfl

/-- Helper: when every status is completed or failed, the completed and failed
filters partition the result list. -/
theorem filter_completed_failed (results : List RunResult)
    (h : ∀ r ∈ results, r.status = "completed" ∨ r.status = "failed") :
    (results.filter (fun r => r.status == "completed")).length
      + (results.filter (fun r => r.status == "failed")).length = results.length := by
  induction results with
  | nil => rfl
  | cons r rs ih =>
    have hr := h r (List.mem_cons_self _ _)
    have hrs := ih (fun x hx => h x (List.mem_cons_of_mem _ hx))
    rcases hr with hc | hf
    · rw [List.filter_cons, List.filter_cons, if_pos (by simp [hc]), if_neg (by simp [hc])]
      simp only [List.length_cons]
      omega
    · rw [List.filter_cons, List.filter_cons, if_neg (by simp [hf]), if_pos (by simp [hf])]
      simp only [List.length_cons]
      omega

/-- C2: for every directory batch, in sequential mode and (for any
as-completed permutation) in parallel mode, the results list has exactly one
entry per discovered file, files_processed counts completed results,
files_failed counts failed results, their sum is files_found, every result is
completed or failed, and a worker-pool failure is converted into a failed
record rather than aborting the batch. -/
theorem C2_batch_invariants (dir : String) (aasxFiles : List String) (parallel : Bool)
    (envS : String → FileOutcome) (envP : String → WorkerOutcome)
    (completionOrder : List String)
    (hperm : parallel = true → completionOrder.Perm aasxFiles) :
    (processAasxDirectory dir aasxFiles parallel envS envP completionOrder).results.length
        = (processAasxDirectory dir aasxFiles parallel envS envP completionOrder).files_found
    ∧ (processAasxDirectory dir aasxFiles parallel envS envP completionOrder).files_processed
        + (processAasxDirectory dir aasxFiles parallel envS envP completionOrder).files_failed
        = (processAasxDirectory dir aasxFiles parallel envS envP completionOrder).files_found
    ∧ (∀ r ∈ (processAasxDirectory dir aasxFiles parallel envS envP completionOrder).results,
        r.status = "completed" ∨ r.status = "failed")
    ∧ ((processAasxDirectory dir aasxFiles parallel envS envP completionOrder).results.map
        RunResult.file_path).Perm aasxFiles := by
  by_cases hemp : aasxFiles.isEmpty = true
  · rw [List.isEmpty_iff] at hemp
    subst hemp
    simp [processAasxDirectory]
  · have hlen : (if parallel = true then processParallel envP completionOrder
        else processSequential envS aasxFiles).length = aasxFiles.length := by
      cases parallel with
      | true => simpa [processParallel] using (hperm rfl).length_eq
      | false => simp [processSequential]
    have hstat : ∀ r ∈ (if parallel = true then processParallel envP completionOrder
        else processSequential envS aasxFiles),
        r.status = "completed" ∨ r.status = "failed" := by
      intro r hrmem
      cases parallel with
      | true =>
        rw [if_pos rfl, processParallel, List.mem_map] at hrmem
        obtain ⟨f, hf, rfl⟩ := hrmem
        exact runWorker_status envP f
      | false =>
        rw [if_neg (by simp), processSequential, List.mem_map] at hrmem
        obtain ⟨f, hf, rfl⟩ := hrmem
        exact processAasxFile_status f (envS f)
    have hpaths : ((if parallel = true then processParallel envP completionOrder
        else processSequential envS aasxFiles).map RunResult.file_path).Perm aasxFiles := by
      cases parallel with
      | true =>
        rw [if_pos rfl, processParallel, List.map_map]
        have hmapid : List.map (RunResult.file_path ∘ runWorker envP) completionOrder
            = completionOrder :=
          List.map_id'' (fun p => runWorker_path_eq envP p) completionOrder
        rw [hmapid]
        exact hperm rfl
      | false =>
        rw [if_neg (by simp), processSequential, List.map_map]
        have hmapid : List.map (RunResult.file_path ∘ fun f => processAasxFile f (envS f))
            aasxFiles = aasxFiles :=
          List.map_id'' (fun p => processAasxFile_path_eq p (envS p)) aasxFiles
        rw [hmapid]
    simp only [processAasxDirectory, if_neg hemp]
    exact ⟨hlen, (filter_completed_failed _ hstat).trans hlen, hstat, hpaths⟩

/-- C2 witness: a two-file parallel batch where one worker fails in the pool
still yields processed + failed = found. -/
theorem C2_witness :
    (true = true → (["b.aasx", "a.aasx"] : List String).Perm ["a.aasx", "b.aasx"])
    ∧ (processAasxDirectory "d" ["a.aasx", "b.aasx"] true
        (fun _ => { extract := { success := true }, transform := { success := true },
                    load := { success := true } })
        (fun p => if p = "a.aasx" then
            .ok { extract := { success := true }, transform := { success := true },
                  load := { success := true } }
          else .poolFailure "boom")
        ["b.aasx", "a.aasx"]).files_processed
      + (processAasxDirectory "d" ["a.aasx", "b.aasx"] true
          (fun _ => { extract := { success := true }, transform := { success := true },
                      load := { success := true } })
          (fun p => if p = "a.aasx" then
              .ok { extract := { success := true }, transform := { success := true },
                    load := { success := true } }
            else .poolFailure "boom")
          ["b.aasx", "a.aasx"]).files_failed
      = (processAasxDirectory "d" ["a.aasx", "b.aasx"] true
          (fun _ => { extract := { success := true }, transform := { success := true },
                      load := { success := true } })
          (fun p => if p = "a.aasx" then
              .ok { extract := { success := true }, transform := { success := true },
                    load := { success := true } }
            else .poolFailure "boom")
          ["b.aasx", "a.aasx"]).files_found :=
  ⟨fun _ => List.Perm.swap "a.aasx" "b.aasx" [],
   (C2_batch_invariants "d" ["a.aasx", "b.aasx"] true
      (fun _ => { extract := { success := true }, transform := { success := true },
                  load := { success := true } })
      (fun p => if p = "a.aasx" then
          .ok { extract := { success := true }, transform := { success := true },
                load := { success := true } }
        else .poolFailure "boom")
      ["b.aasx", "a.aasx"]
      (fun _ => List.Perm.swap "a.aasx" "b.aasx" [])).2.1⟩

/-- Helper: replacing under an existing key keeps the table length. -/
theorem tableUpsert_length_of_contains [BEq α] (t : List (α × β)) (k : α) (v : β)
    (h : t.any (fun e => e.1 == k) = true) :
    (tableUpsert t k v).length = t.length := by
  rw [tableUpsert, if_pos h, List.length_map]

/-- Helper: inserting under a fresh key grows the table by one row. -/
theorem tableUpsert_length_of_fresh [BEq α] (t : List (α × β)) (k : α) (v : β)
    (h : t.any (fun e => e.1 == k) = false) :
    (tableUpsert t k v).length = t.length + 1 := by
  rw [tableUpsert, if_neg (by simp [h])]
  simp

/-- Helper: after an upsert the inserted key is present. -/
theorem tableUpsert_contains_self [BEq α] [LawfulBEq α] (t : List (α × β)) (k : α) (v : β) :
    (tableUpsert t k v).any (fun e => e.1 == k) = true := by
  rw [tableUpsert]
  split
  · rename_i h
    rw [List.any_eq_true] at h ⊢
    obtain ⟨e, he, hek⟩ := h
    exact ⟨(k, v), List.mem_map.mpr ⟨e, he, by rw [if_pos hek]⟩, by simp⟩
  · rw [List.any_eq_true]
    exact ⟨(k, v), List.mem_append_right _ (List.mem_singleton_self _), by simp⟩

/-- Helper: an upsert never removes a present key. -/
theorem tableUpsert_contains_mono [BEq α] [LawfulBEq α] (t : List (α × β)) (k k2 : α) (v : β)
    (h : t.any (fun e => e.1 == k2) = true) :
    (tableUpsert t k v).any (fun e => e.1 == k2) = true := by
  rw [tableUpsert]
  split
  · rw [List.any_eq_true] at h ⊢
    obtain ⟨e, he, hek⟩ := h
    by_cases hk : (e.1 == k) = true
    · refine ⟨(k, v), List.mem_map.mpr ⟨e, he, by rw [if_pos hk]⟩, ?_⟩
      have h1 : e.1 = k2 := eq_of_beq hek
      have h2 : e.1 = k := eq_of_beq hk
      simp [← h2, h1]
    · exact ⟨e, List.mem_map.mpr ⟨e, he, by rw [if_neg hk]⟩, hek⟩
  · rw [List.any_eq_true] at h ⊢
    obtain ⟨e, he, hek⟩ := h
    exact ⟨e, List.mem_append_left _ he, hek⟩

/-- Helper: a sequence of upserts never removes a present key. -/
theorem upsertMany_contains_mono [BEq α] [LawfulBEq α] (items : List (α × β))
    (t : List (α × β)) (k2 : α)
    (h : t.any (fun e => e.1 == k2) = true) :
    (upsertMany t items).any (fun e => e.1 == k2) = true := by
  induction items generalizing t with
  | nil => exact h
  | cons j items ih =>
    have hstep : upsertMany t (j :: items) = upsertMany (tableUpsert t j.1 j.2) items := rfl
    rw [hstep]
    exact ih _ (tableUpsert_contains_mono t j.1 k2 j.2 h)

/-- Helper: after a sequence of upserts every inserted key is present. -/
theorem upsertMany_contains_of_mem [BEq α] [LawfulBEq α] (items : List (α × β))
    (t : List (α × β)) (i : α × β) (hmem : i ∈ items) :
    (upsertMany t items).any (fun e => e.1 == i.1) = true := by
  induction items generalizing t with
  | nil => cases hmem
  | cons j items ih =>
    have hstep : upsertMany t (j :: items) = upsertMany (tableUpsert t j.1 j.2) items := rfl
    rw [hstep]
    rcases List.mem_cons.mp hmem with rfl | hmem2
    · exact upsertMany_contains_mono items _ i.1 (tableUpsert_contains_self t i.1 i.2)
    · exact ih _ hmem2

/-- Helper: a sequence of upserts whose keys are all already present keeps
the table length. -/
theorem upsertMany_length_of_all_contained [BEq α] [LawfulBEq α] (items : List (α × β))
    (t : List (α × β))
    (h : ∀ i ∈ items, t.any (fun e => e.1 == i.1) = true) :
    (upsertMany t items).length = t.length := by
  induction items generalizing t with
  | nil => rfl
  | cons j items ih =>
    have hstep : upsertMany t (j :: items) = upsertMany (tableUpsert t j.1 j.2) items := rfl
    rw [hstep]
    have hj := h j (List.mem_cons_self _ _)
    have hrest : ∀ i ∈ items, (tableUpsert t j.1 j.2).any (fun e => e.1 == i.1) = true :=
      fun i hi => tableUpsert_contains_mono t j.1 i.1 j.2 (h i (List.mem_cons_of_mem _ hi))
    exact (ih _ hrest).trans (tableUpsert_length_of_contains t j.1 j.2 hj)

/-- Helper: inserting a batch of rows under freshly generated surrogate keys
grows the table by the batch size, advances the counter by the batch size,
and keeps every key strictly below the advanced counter. -/
theorem surrogateInsertMany_spec (items : List β) (t : List (Nat × β)) (n : Nat)
    (h : ∀ k ∈ t.map Prod.fst, k < n) :
    ((surrogateInsertMany t n items).1.length = t.length + items.length)
    ∧ ((surrogateInsertMany t n items).2 = n + items.length)
    ∧ (∀ k ∈ (surrogateInsertMany t n items).1.map Prod.fst,
        k < (surrogateInsertMany t n items).2) := by
  induction items generalizing t n with
  | nil => exact ⟨rfl, rfl, h⟩
  | cons b items ih =>
    have hstep : surrogateInsertMany t n (b :: items)
        = surrogateInsertMany (tableUpsert t n b) (n + 1) items := rfl
    rw [hstep]
    have hfresh : t.any (fun e => e.1 == n) = false := by
      rw [List.any_eq_false]
      intro e he
      have hlt := h e.1 (List.mem_map_of_mem Prod.fst he)
      simp [Nat.ne_of_lt hlt]
    have hkeys : ∀ k ∈ (tableUpsert t n b).map Prod.fst, k < n + 1 := by
      intro k hk
      rw [tableUpsert, if_neg (by simp [hfresh]), List.map_append, List.mem_append] at hk
      rcases hk with hk | hk
      · exact lt_trans (h k hk) (Nat.lt_succ_self n)
      · simp at hk
        omega
    obtain ⟨h1, h2, h3⟩ := ih (tableUpsert t n b) (n + 1) hkeys
    refine ⟨?_, ?_, h3⟩
    · rw [h1, tableUpsert_length_of_fresh t n b hfresh]
      simp
      omega
    · rw [h2]
      simp
      omega

/-- Helper: one relational load preserves the surrogate-key invariant. -/
theorem loadToDatabase_surrogateInv (d : CleanedData) (db : Database)
    (h : surrogateInv db) :
    surrogateInv (loadToDatabase d db).1 := by
  obtain ⟨hdoc, hrel⟩ := h
  have hdocs := surrogateInsertMany_spec (d.documents.map docRowOf) db.documents
    db.nextSurrogate hdoc
  have hrelbound : ∀ k ∈ db.relationships.map Prod.fst,
      k < db.nextSurrogate + (d.documents.map docRowOf).length := by
    intro k hk
    exact lt_of_lt_of_le (hrel k hk) (Nat.le_add_right _ _)
  have hrels := surrogateInsertMany_spec (d.relationships.map relRowOf) db.relationships
    (db.nextSurrogate + (d.documents.map docRowOf).length) hrelbound
  constructor
  · intro k hk
    have hk2 := hdocs.2.2 k hk
    rw [hdocs.2.1] at hk2
    rw [show (loadToDatabase d db).1.nextSurrogate
        = (surrogateInsertMany db.relationships
            (surrogateInsertMany db.documents db.nextSurrogate (d.documents.map docRowOf)).2
            (d.relationships.map relRowOf)).2 from rfl, hdocs.2.1, hrels.2.1]
    omega
  · intro k hk
    have hk2 : k < (surrogateInsertMany db.relationships
        (db.nextSurrogate + (d.documents.map docRowOf).length)
        (d.relationships.map relRowOf)).2 := hrels.2.2 k (by
      rw [show (loadToDatabase d db).1.relationships
          = (surrogateInsertMany db.relationships
              (surrogateInsertMany db.documents db.nextSurrogate (d.documents.map docRowOf)).2
              (d.relationships.map relRowOf)).1 from rfl, hdocs.2.1] at hk
      exact hk)
    rw [show (loadToDatabase d db).1.nextSurrogate
        = (surrogateInsertMany db.relationships
            (surrogateInsertMany db.documents db.nextSurrogate (d.documents.map docRowOf)).2
            (d.relationships.map relRowOf)).2 from rfl, hdocs.2.1]
    exact hk2

/-- C6 counterexample: loading a record holding one relationship twice leaves
the relationships table with two rows, not one — the fresh uuid4 surrogate
key of the second load never conflicts, so INSERT OR REPLACE appends. -/
theorem C6_counterexample :
    ((loadToDatabase
        { relationships := [{ source_id := "a1", target_id := "s1", type := "asset_has_submodel" }] }
        ((loadToDatabase
          { relationships := [{ source_id := "a1", target_id := "s1", type := "asset_has_submodel" }] }
          {}).1)).1.relationships.length = 2)
    ∧ ((loadToDatabase
        { relationships := [{ source_id := "a1", target_id := "s1", type := "asset_has_submodel" }] }
        {}).1.relationships.length = 1) :=
  ⟨rfl, rfl⟩

/-- C6 (amended): loading the same transformed record twice leaves the assets
and submodels tables with unchanged row counts (their upserts are keyed by the
entity id), but the documents and relationships tables grow by the number of
documents and relationships in the record on every load, because their INSERT
OR REPLACE keys are freshly generated surrogate ids (uuid4) that never hit an
existing row. -/
theorem C6_second_load_row_counts (d : CleanedData) (db : Database)
    (hinv : surrogateInv db) :
    ((loadToDatabase d (loadToDatabase d db).1).1.assets.length
        = (loadToDatabase d db).1.assets.length)
    ∧ ((loadToDatabase d (loadToDatabase d db).1).1.submodels.length
        = (loadToDatabase d db).1.submodels.length)
    ∧ ((loadToDatabase d (loadToDatabase d db).1).1.documents.length
        = (loadToDatabase d db).1.documents.length + d.documents.length)
    ∧ ((loadToDatabase d (loadToDatabase d db).1).1.relationships.length
        = (loadToDatabase d db).1.relationships.length + d.relationships.length) := by
  have hinv1 := loadToDatabase_surrogateInv d db hinv
  obtain ⟨hdoc1, hrel1⟩ := hinv1
  refine ⟨?_, ?_, ?_, ?_⟩
  · show (upsertMany (loadToDatabase d db).1.assets
        (d.assets.map (fun a => (a.id, assetRowOf a)))).length
      = (loadToDatabase d db).1.assets.length
    apply upsertMany_length_of_all_contained
    intro i hi
    show ((upsertMany db.assets (d.assets.map (fun a => (a.id, assetRowOf a))))).any
        (fun e => e.1 == i.1) = true
    exact upsertMany_contains_of_mem _ _ i hi
  · show (upsertMany (loadToDatabase d db).1.submodels
        (d.submodels.map (fun s => (s.id, submodelRowOf s)))).length
      = (loadToDatabase d db).1.submodels.length
    apply upsertMany_length_of_all_contained
    intro i hi
    show ((upsertMany db.submodels (d.submodels.map (fun s => (s.id, submodelRowOf s))))).any
        (fun e => e.1 == i.1) = true
    exact upsertMany_contains_of_mem _ _ i hi
  · have hdocs := surrogateInsertMany_spec (d.documents.map docRowOf)
      (loadToDatabase d db).1.documents (loadToDatabase d db).1.nextSurrogate hdoc1
    have := hdocs.1
    rw [List.length_map] at this
    exact this
  · have hrelbound : ∀ k ∈ (loadToDatabase d db).1.relationships.map Prod.fst,
        k < (surrogateInsertMany (loadToDatabase d db).1.documents
            (loadToDatabase d db).1.nextSurrogate (d.documents.map docRowOf)).2 := by
      intro k hk
      have hdocs := surrogateInsertMany_spec (d.documents.map docRowOf)
        (loadToDatabase d db).1.documents (loadToDatabase d db).1.nextSurrogate hdoc1
      rw [hdocs.2.1]
      exact lt_of_lt_of_le (hrel1 k hk) (Nat.le_add_right _ _)
    have hrels := surrogateInsertMany_spec (d.relationships.map relRowOf)
      (loadToDatabase d db).1.relationships
      (surrogateInsertMany (loadToDatabase d db).1.documents
        (loadToDatabase d db).1.nextSurrogate (d.documents.map docRowOf)).2 hrelbound
    have := hrels.1
    rw [List.length_map] at this
    exact this

/-- C6 witness: on an empty database, loading a record with one document twice
grows the documents table from one row to two. -/
theorem C6_witness :
    surrogateInv {}
    ∧ ((loadToDatabase { documents := [{ filename := "m.pdf", size := 3, type := ".pdf" }] }
          ((loadToDatabase { documents := [{ filename := "m.pdf", size := 3, type := ".pdf" }] }
            {}).1)).1.documents.length
        = (loadToDatabase { documents := [{ filename := "m.pdf", size := 3, type := ".pdf" }] }
            {}).1.documents.length
          + (CleanedData.documents
              { documents := [{ filename := "m.pdf", size := 3, type := ".pdf" }] }).length) :=
  ⟨And.intro (fun k hk => absurd hk (List.not_mem_nil k))
      (fun k hk => absurd hk (List.not_mem_nil k)),
   (C6_second_load_row_counts
      { documents := [{ filename := "m.pdf", size := 3, type := ".pdf" }] } {}
      (And.intro (fun k hk => absurd hk (List.not_mem_nil k))
        (fun k hk => absurd hk (List.not_mem_nil k)))).2.2.1⟩

end AASX
